import Mathlib

/-!
Verification development for the AWS event adapter (package awseventadapter).

The adapter translates an inbound Lambda event (API-Gateway- or
load-balancer-shaped) into a synthetic HTTP request, drives a handler with
it, and translates the captured HTTP response back into an outbound event.

Modelling conventions:
- Go byte slices and Go strings that may hold arbitrary bytes (request and
  response bodies) are modelled as lists of byte values (as Nat below 256).
- Go strings that are known-valid UTF-8 (paths, methods, header keys and
  values, query keys and values) are modelled as Lean strings; the Go
  conversion to bytes is modelled by explicit UTF-8 encoding.
- Go maps are modelled as association lists; the nondeterministic Go map
  iteration order is fixed to be the list order.
- The environment lookup of GO_API_HOST is modelled as an Option String
  parameter threaded into ToRequest and Proxy.
- Receiver mutation through the pointer receivers is modelled by state
  passing: methods that mutate the AdapterRequest return the updated value.
-/

/-- Value of the constant CustomHostVariable (name of the host override
environment variable). -/
def CustomHostVariable : String := "GO_API_HOST"

/-- Value of the constant DefaultServerAddress. -/
def DefaultServerAddress : String := "https://aws-serverless-go-api.com"

/-- UTF-8 encoding of a single code point, as produced by the Go string to
byte-slice conversion for a valid string. -/
def utf8EncodeCp (c : Nat) : List Nat :=
  if c < 128 then [c]
  else if c < 2048 then [192 + c / 64, 128 + c % 64]
  else if c < 65536 then [224 + c / 4096, 128 + (c / 64) % 64, 128 + c % 64]
  else [240 + c / 262144, 128 + (c / 4096) % 64, 128 + (c / 64) % 64, 128 + c % 64]

/-- Byte contents of a Go string holding valid UTF-8, modelling []byte(s). -/
def strBytes (s : String) : List Nat :=
  (s.toList.map (fun c => utf8EncodeCp c.toNat)).flatten

/-- Models the Go builtin len on strings (number of bytes). -/
def goLen (s : String) : Nat := (strBytes s).length

/-- Byte value of the standard base64 alphabet at index v (A-Z, a-z, 0-9, +, /). -/
def b64Chr (v : Nat) : Nat :=
  if v < 26 then v + 65
  else if v < 52 then v + 71
  else if v < 62 then v - 4
  else if v = 62 then 43
  else 47

/-- Index of a byte in the standard base64 alphabet, none for bytes outside it. -/
def b64Index (c : Nat) : Option Nat :=
  if 65 ≤ c ∧ c ≤ 90 then some (c - 65)
  else if 97 ≤ c ∧ c ≤ 122 then some (c - 71)
  else if 48 ≤ c ∧ c ≤ 57 then some (c + 4)
  else if c = 43 then some 62
  else if c = 47 then some 63
  else none

/-- Models base64.StdEncoding.EncodeToString: bytes in, the bytes of the
padded base64 text out (61 is the pad byte, the ASCII equals sign). -/
def base64Encode : List Nat → List Nat
  | [] => []
  | [a] => [b64Chr (a / 4), b64Chr (a % 4 * 16), 61, 61]
  | [a, b] => [b64Chr (a / 4), b64Chr (a % 4 * 16 + b / 16), b64Chr (b % 16 * 4), 61]
  | a :: b :: c :: rest =>
    b64Chr (a / 4) :: b64Chr (a % 4 * 16 + b / 16) ::
      b64Chr (b % 16 * 4 + c / 64) :: b64Chr (c % 64) :: base64Encode rest

/-- Core of the standard base64 decoder: consumes quanta of four text bytes,
accepts padding only at the end, does not require the unused trailing bits to
be zero (matching the non-strict Go decoder). -/
def base64Decode : List Nat → Option (List Nat)
  | [] => some []
  | c1 :: c2 :: c3 :: c4 :: rest =>
    match b64Index c1, b64Index c2 with
    | some v1, some v2 =>
      if c3 = 61 then
        if c4 = 61 ∧ rest = [] then some [v1 * 4 + v2 / 16] else none
      else
        match b64Index c3 with
        | some v3 =>
          if c4 = 61 then
            if rest = [] then some [v1 * 4 + v2 / 16, v2 % 16 * 16 + v3 / 4] else none
          else
            match b64Index c4 with
            | some v4 =>
              match base64Decode rest with
              | some tail => some ((v1 * 4 + v2 / 16) :: (v2 % 16 * 16 + v3 / 4) ::
                  (v3 % 4 * 64 + v4) :: tail)
              | none => none
            | none => none
        | none => none
    | _, _ => none
  | _ => none

/-- Models base64.StdEncoding.DecodeString on the bytes of the input string:
the Go decoder skips carriage returns and newlines anywhere in the input,
then decodes strictly; none models the CorruptInputError case. -/
def base64DecodeGo (l : List Nat) : Option (List Nat) :=
  base64Decode (l.filter (fun b => !(b == 10 || b == 13)))

/-- Continuation byte test for UTF-8 (0x80 to 0xBF). -/
def utf8Cont (b : Nat) : Bool :=
  decide (128 ≤ b) && decide (b ≤ 191)

/-- Accepted range of the second byte of a three-byte UTF-8 sequence,
following the acceptRanges table of the Go unicode/utf8 package. -/
def utf8Second3 (b1 b2 : Nat) : Bool :=
  if b1 = 224 then decide (160 ≤ b2) && decide (b2 ≤ 191)
  else if b1 = 237 then decide (128 ≤ b2) && decide (b2 ≤ 159)
  else utf8Cont b2

/-- Accepted range of the second byte of a four-byte UTF-8 sequence,
following the acceptRanges table of the Go unicode/utf8 package. -/
def utf8Second4 (b1 b2 : Nat) : Bool :=
  if b1 = 240 then decide (144 ≤ b2) && decide (b2 ≤ 191)
  else if b1 = 244 then decide (128 ≤ b2) && decide (b2 ≤ 143)
  else utf8Cont b2

/-- Models utf8.Valid of the Go standard library: whether the byte sequence
is entirely well-formed UTF-8 (no overlong forms, no surrogates, no code
points above 0x10FFFF). -/
def utf8Valid : List Nat → Bool
  | [] => true
  | b1 :: t =>
    if b1 < 128 then utf8Valid t
    else if b1 < 194 then false
    else if b1 < 224 then
      match t with
      | [] => false
      | b2 :: t2 => utf8Cont b2 && utf8Valid t2
    else if b1 < 240 then
      match t with
      | b2 :: b3 :: t3 => utf8Second3 b1 b2 && utf8Cont b3 && utf8Valid t3
      | _ => false
    else if b1 < 245 then
      match t with
      | b2 :: b3 :: b4 :: t4 => utf8Second4 b1 b2 && utf8Cont b3 && utf8Cont b4 && utf8Valid t4
      | _ => false
    else false

/-- Upper-case hexadecimal digit byte for a value below 16. -/
def hexUpper (n : Nat) : Nat := if n < 10 then 48 + n else 55 + n

/-- Bytes that url.QueryEscape leaves unescaped: ASCII letters, digits,
and the marks minus, period, underscore, tilde. -/
def queryUnreserved (b : Nat) : Bool :=
  (decide (48 ≤ b) && decide (b ≤ 57)) ||
  (decide (65 ≤ b) && decide (b ≤ 90)) ||
  (decide (97 ≤ b) && decide (b ≤ 122)) ||
  b == 45 || b == 46 || b == 95 || b == 126

/-- Escaping of one byte under url.QueryEscape: kept, turned into a plus
for a space, or percent-encoded with upper-case hexadecimal digits. -/
def queryEscapeByte (b : Nat) : List Nat :=
  if queryUnreserved b then [b]
  else if b = 32 then [43]
  else [37, hexUpper (b / 16), hexUpper (b % 16)]

/-- Models url.QueryEscape: escapes the UTF-8 bytes of the string so that it
can be safely placed inside a URL query. The result is ASCII. -/
def queryEscape (s : String) : String :=
  String.mk (((strBytes s).map queryEscapeByte).flatten.map Char.ofNat)

/-- Models strings.HasPrefix on valid UTF-8 strings. -/
def goStartsWith (s pre : String) : Bool := pre.toList.isPrefixOf s.toList

/-- Models strings.HasSuffix on valid UTF-8 strings. -/
def goEndsWith (s suf : String) : Bool := suf.toList.isSuffixOf s.toList

/-- Removal of the last character of a string; models the Go slicing
s[:len(s)-1] when the last byte is a one-byte character. -/
def dropLastChar (s : String) : String := String.mk s.toList.dropLast

/-- Removal of the first occurrence of the pattern p (assumed non-empty)
from a character list. -/
def dropFirstMatch (p : List Char) : List Char → List Char
  | [] => []
  | c :: t => if p.isPrefixOf (c :: t) then (c :: t).drop p.length else c :: dropFirstMatch p t

/-- Models strings.Replace(s, pat, "", 1) for a non-empty pattern. -/
def goReplaceOnce (s pat : String) : String := String.mk (dropFirstMatch pat.toList s.toList)

/-- Models strings.ToUpper restricted to its effect on ASCII letters. -/
def goToUpper (s : String) : String :=
  String.mk (s.toList.map (fun c =>
    if 97 ≤ c.toNat ∧ c.toNat ≤ 122 then Char.ofNat (c.toNat - 32) else c))

/-- Models strings.Trim(s, " "): removal of leading and trailing spaces. -/
def goTrimSpaces (s : String) : String :=
  String.mk (((s.toList.dropWhile (fun c => c = ' ')).reverse.dropWhile
    (fun c => c = ' ')).reverse)

/-- HTTP token bytes, as accepted by the Go httpguts.IsTokenRune check:
letters, digits, and the characters with codes listed (bang, hash, dollar,
percent, ampersand, apostrophe, star, plus, minus, period, caret,
underscore, backquote, pipe, tilde). -/
def isTokenByte (n : Nat) : Bool :=
  (decide (48 ≤ n) && decide (n ≤ 57)) ||
  (decide (65 ≤ n) && decide (n ≤ 90)) ||
  (decide (97 ≤ n) && decide (n ≤ 122)) ||
  n == 33 || n == 35 || n == 36 || n == 37 || n == 38 || n == 39 ||
  n == 42 || n == 43 || n == 45 || n == 46 || n == 94 || n == 95 ||
  n == 96 || n == 124 || n == 126

/-- Case transformation pass of textproto.CanonicalMIMEHeaderKey: each
letter is upper-cased right after the start or a hyphen and lower-cased
elsewhere. -/
def canonAux : Bool → List Char → List Char
  | _, [] => []
  | up, c :: t =>
    let n := c.toNat
    let c2 := if up ∧ 97 ≤ n ∧ n ≤ 122 then Char.ofNat (n - 32)
      else if ¬up ∧ 65 ≤ n ∧ n ≤ 90 then Char.ofNat (n + 32)
      else c
    c2 :: canonAux (c2 = '-') t

/-- Models textproto.CanonicalMIMEHeaderKey, applied by http.Header.Add to
every key: canonical MIME case if every byte is a valid header token byte,
the key unchanged otherwise. -/
def canonicalMIMEHeaderKey (s : String) : String :=
  if s.toList.all (fun c => isTokenByte c.toNat) then String.mk (canonAux true s.toList)
  else s

/-- Models the validMethod check of http.NewRequest: non-empty and made of
token bytes only. -/
def validMethod (m : String) : Bool :=
  (m != "") && m.toList.all (fun c => isTokenByte c.toNat)

/-- Decidable equality for Except values, used to evaluate translation
results on concrete inputs. -/
instance {ε α : Type} [DecidableEq ε] [DecidableEq α] : DecidableEq (Except ε α)
  | .ok a, .ok b =>
    if h : a = b then isTrue (by rw [h]) else isFalse (by intro hc; cases hc; exact h rfl)
  | .ok _, .error _ => isFalse (by intro hc; cases hc)
  | .error _, .ok _ => isFalse (by intro hc; cases hc)
  | .error a, .error b =>
    if h : a = b then isTrue (by rw [h]) else isFalse (by intro hc; cases hc; exact h rfl)

/-- Errors surfaced by the translation layer. malformedBody models the
base64 CorruptInputError returned for an undecodable body;
requestConstruction models a failure of http.NewRequest; responseRead
models a failure to drain the response body in NewAdapterResponse. -/
inductive AdapterError : Type
  | malformedBody
  | requestConstruction
  | responseRead
deriving DecidableEq

/-- Models the http.Request values produced by ToRequest: method, the raw
URL string handed to http.NewRequest, the header set (built solely by
http.Header.Add, recorded as the list of canonicalised key and value pairs
in insertion order), the body bytes, and the context attached by
WithContext (the Lambda context is opaque to the adapter and modelled as a
number). -/
structure GoHttpRequest where
  method : String
  url : String
  headers : List (String × String)
  body : List Nat
  reqCtx : Option Nat
deriving DecidableEq

/-- Models http.NewRequest as used by ToRequest: an empty method defaults
to GET, an invalid method token is rejected; the URL string is retained
as given (url.Parse failures are folded into the same requestConstruction
error and not modelled further, which is sufficient for the claims). -/
def NewRequest (method urlStr : String) (body : List Nat) : Except AdapterError GoHttpRequest :=
  let m := if method = "" then "GET" else method
  if validMethod m then
    Except.ok { method := m, url := urlStr, headers := [], body := body, reqCtx := none }
  else Except.error AdapterError.requestConstruction

/-- Models the AdapterRequest struct (superset of the API Gateway and ALB
event shapes). The unexported stripBasePath field holds the configured
base-path override; RequestContext is opaque to the adapter and modelled
as a number. -/
structure AdapterRequest where
  Resource : String := ""
  Path : String := ""
  HTTPMethod : String := ""
  Headers : List (String × String) := []
  MultiValueHeaders : List (String × List String) := []
  QueryStringParameters : List (String × String) := []
  MultiValueQueryStringParameters : List (String × List String) := []
  PathParameters : List (String × String) := []
  StageVariables : List (String × String) := []
  RequestContext : Nat := 0
  Body : List Nat := []
  IsBase64Encoded : Bool := false
  stripBasePath : String := ""
deriving DecidableEq

/-- Body-decoding step of ToRequest: the raw body bytes when the base64
flag is clear, the base64 decoding otherwise, failing on a corrupt body. -/
def decodeBodyStep (ar : AdapterRequest) : Except AdapterError (List Nat) :=
  if ar.IsBase64Encoded then
    match base64DecodeGo ar.Body with
    | some b => Except.ok b
    | none => Except.error AdapterError.malformedBody
  else Except.ok ar.Body

/-- Path-resolution step of ToRequest (lines stripping the configured base
path and forcing a leading slash): the configured prefix is removed once
when it is longer than one byte and the path starts with it. -/
def resolvePath (strip p : String) : String :=
  let path :=
    if strip ≠ "" ∧ goLen strip > 1 then
      if goStartsWith p strip then goReplaceOnce p strip else p
    else p
  if goStartsWith path "/" then path else "/" ++ path

/-- Step function of the query-string accumulation loops: an ampersand is
inserted before every piece except the first. -/
def queryAppendStep (qs piece : String) : String :=
  (if qs = "" then qs else qs ++ "&") ++ piece

/-- One escaped key equals value pair of the reconstructed query string. -/
def queryPiece (k v : String) : String := queryEscape k ++ "=" ++ queryEscape v

/-- Query string built from the multi-value query parameters, mirroring the
nested loops of ToRequest (iteration order fixed to the list order). -/
def buildMultiValueQueryString (m : List (String × List String)) : String :=
  m.foldl (fun qs kv => kv.2.foldl (fun qs2 v => queryAppendStep qs2 (queryPiece kv.1 v)) qs) ""

/-- Query string built from the single-value query parameters, mirroring
the backward-compatibility loop of ToRequest. -/
def buildQueryString (m : List (String × String)) : String :=
  m.foldl (fun qs kv => queryAppendStep qs (queryPiece kv.1 kv.2)) ""

/-- Query-appending step of ToRequest: the reconstructed query string is
appended onto the Path field of the receiver itself (the multi-value map
takes the branch whenever it is non-empty). -/
def applyQuery (ar : AdapterRequest) : AdapterRequest :=
  if ar.MultiValueQueryStringParameters ≠ [] then
    { ar with Path := ar.Path ++ "?" ++
        buildMultiValueQueryString ar.MultiValueQueryStringParameters }
  else if ar.QueryStringParameters ≠ [] then
    { ar with Path := ar.Path ++ "?" ++ buildQueryString ar.QueryStringParameters }
  else ar

/-- Header-population step of ToRequest: every single-value header is fed
through http.Header.Add, which canonicalises the key. -/
def withHeaders (req : GoHttpRequest) (hs : List (String × String)) : GoHttpRequest :=
  { req with headers := hs.map (fun kv => (canonicalMIMEHeaderKey kv.1, kv.2)) }

/-- Models AdapterRequest.ToRequest. The env parameter models
os.LookupEnv(CustomHostVariable). The receiver is mutated through its
pointer (the query string is appended onto ar.Path), so the updated
AdapterRequest is returned alongside the result. The Go function also
composes serverAddress with the resolved path into a local variable, but
that local is not used afterwards: http.NewRequest receives ar.Path. The
unused composition is kept (as the binding named with a leading
underscore) to mirror the source. -/
def AdapterRequest.ToRequest (ar : AdapterRequest) (env : Option String) :
    Except AdapterError GoHttpRequest × AdapterRequest :=
  match decodeBodyStep ar with
  | .error e => (.error e, ar)
  | .ok decodedBody =>
    let path := resolvePath ar.stripBasePath ar.Path
    let serverAddress := match env with | some a => a | none => DefaultServerAddress
    let _fullPath := serverAddress ++ path
    let ar1 := applyQuery ar
    match NewRequest (goToUpper ar1.HTTPMethod) ar1.Path decodedBody with
    | .error e => (.error e, ar1)
    | .ok req => (.ok (withHeaders req ar1.Headers), ar1)

/-- Models AdapterRequest.StripBasePath: the input is cleared when it is
empty or all spaces, otherwise a leading slash is added when missing and a
single trailing slash is removed; the normalised value is stored on the
receiver and returned. -/
def AdapterRequest.StripBasePath (ar : AdapterRequest) (basePath : String) :
    String × AdapterRequest :=
  if goTrimSpaces basePath = "" then ("", { ar with stripBasePath := "" })
  else
    let n1 := if goStartsWith basePath "/" then basePath else "/" ++ basePath
    let n2 := if goEndsWith n1 "/" then dropLastChar n1 else n1
    (n2, { ar with stripBasePath := n2 })

/-- Models the http.Response captured from the handler through the
httptest recorder: status code, header map, and the outcome of reading the
body stream (reading can fail, which NewAdapterResponse surfaces). -/
structure GoHttpResponse where
  statusCode : Nat
  header : List (String × List String)
  bodyRead : Except String (List Nat)
deriving DecidableEq

/-- Models the AdapterResponse struct. Body holds the bytes of the Go
body string (the raw bytes when they are valid UTF-8, the ASCII bytes of
their base64 encoding otherwise). -/
structure AdapterResponse where
  StatusCode : Nat
  StatusDescription : String
  Headers : List (String × String)
  MultiValueHeaders : List (String × List String)
  Body : List Nat
  IsBase64Encoded : Bool
deriving DecidableEq

/-- Models NewAdapterResponse: reads the whole body, emits it as text with
a clear flag when it is valid UTF-8 and base64-encodes it with a set flag
otherwise; the single-value header map is always emitted empty and the
status description is always empty, while the multi-value header map is
the response header map verbatim. -/
def NewAdapterResponse (r : GoHttpResponse) : Except AdapterError AdapterResponse :=
  match r.bodyRead with
  | .error _ => .error AdapterError.responseRead
  | .ok rb =>
    let out := if utf8Valid rb then (rb, false) else (base64Encode rb, true)
    .ok { StatusCode := r.statusCode, StatusDescription := "", Headers := [],
          MultiValueHeaders := r.header, Body := out.1, IsBase64Encoded := out.2 }

namespace events

/-- Models the events.APIGatewayProxyResponse struct of aws-lambda-go
(it has no status-description field). -/
structure APIGatewayProxyResponse where
  StatusCode : Nat
  Headers : List (String × String)
  MultiValueHeaders : List (String × List String)
  Body : List Nat
  IsBase64Encoded : Bool
deriving DecidableEq

/-- Models the events.ALBTargetGroupResponse struct of aws-lambda-go; its
fields coincide with AdapterResponse, which is what makes the direct Go
type conversion in the source legal. -/
structure ALBTargetGroupResponse where
  StatusCode : Nat
  StatusDescription : String
  Headers : List (String × String)
  MultiValueHeaders : List (String × List String)
  Body : List Nat
  IsBase64Encoded : Bool
deriving DecidableEq

end events

/-- Models AdapterResponse.APIGatewayProxyResponse: a fresh empty header
map, the multi-value headers, body, flag and status carried over (the Go
method also returns an always-nil error, elided here). -/
def AdapterResponse.APIGatewayProxyResponse (ar : AdapterResponse) :
    events.APIGatewayProxyResponse :=
  { StatusCode := ar.StatusCode, Headers := [],
    MultiValueHeaders := ar.MultiValueHeaders, Body := ar.Body,
    IsBase64Encoded := ar.IsBase64Encoded }

/-- Models AdapterResponse.ALBTargetGroupResponse: the Go type conversion
events.ALBTargetGroupResponse(*ar), a field-for-field copy (the always-nil
error is elided). -/
def AdapterResponse.ALBTargetGroupResponse (ar : AdapterResponse) :
    events.ALBTargetGroupResponse :=
  { StatusCode := ar.StatusCode, StatusDescription := ar.StatusDescription,
    Headers := ar.Headers, MultiValueHeaders := ar.MultiValueHeaders,
    Body := ar.Body, IsBase64Encoded := ar.IsBase64Encoded }

/-- Errors returned by Proxy, wrapping the failing phase as the Go code
does with errors.Wrap: requestPhase carries the message about converting
the AdapterRequest into an http.Request, responsePhase the message about
converting the http.Response into an AdapterResponse. -/
inductive ProxyError : Type
  | requestPhase (cause : AdapterError)
  | responsePhase (cause : AdapterError)
deriving DecidableEq

/-- Models AdapterRequest.Proxy. The handler is the externally supplied
http.Handler, abstracted as a function from the synthetic request to the
captured response (the channel-based completion wait of the Go code makes
the invocation synchronous, so the handler is observed exactly as a
function); ctx is the Lambda context attached via WithContext. Like the
Go function, it returns a response and an error of which exactly one is
meaningful, here as a pair of options, together with the mutated
receiver. -/
def AdapterRequest.Proxy (ar : AdapterRequest) (env : Option String) (ctx : Nat)
    (handler : GoHttpRequest → GoHttpResponse) :
    (Option AdapterResponse × Option ProxyError) × AdapterRequest :=
  match ar.ToRequest env with
  | (.error e, ar1) => ((none, some (.requestPhase e)), ar1)
  | (.ok req, ar1) =>
    let req1 := { req with reqCtx := some ctx }
    let resp := handler req1
    match NewAdapterResponse resp with
    | .error e => ((none, some (.responsePhase e)), ar1)
    | .ok aresp => ((some aresp, none), ar1)

/-- Inbound event with every field empty, used as the base of the concrete
evaluation inputs below. -/
def baseRequest : AdapterRequest := {}

/-- Pieces joined with an ampersand separator, the shape the query-string
accumulation loop produces. -/
def joinAmp : List String → String
  | [] => ""
  | [p] => p
  | p :: q :: r => p ++ "&" ++ joinAmp (q :: r)

/-- Pieces each preceded by an ampersand, the shape produced after a
non-empty accumulator. -/
def ampSuffix : List String → String
  | [] => ""
  | p :: r => "&" ++ p ++ ampSuffix r

/-- Escaped pairs of the flattened multi-value query map. -/
def multiValuePieces (m : List (String × List String)) : List String :=
  (m.map (fun kv => kv.2.map (fun v => queryPiece kv.1 v))).flatten

/-- Escaped pairs of the single-value query map. -/
def singleValuePieces (m : List (String × String)) : List String :=
  m.map (fun kv => queryPiece kv.1 kv.2)

/-- Method string handed to the synthetic request: upper-cased, with the
empty method defaulting to GET inside http.NewRequest. -/
def effectiveMethod (m : String) : String :=
  if goToUpper m = "" then "GET" else goToUpper m

/-- Query string that ToRequest appends when at least one of the query
maps is non-empty: the multi-value reconstruction when that map is
non-empty, the single-value reconstruction otherwise. -/
def queryStringOf (ar : AdapterRequest) : String :=
  if ar.MultiValueQueryStringParameters ≠ [] then
    buildMultiValueQueryString ar.MultiValueQueryStringParameters
  else buildQueryString ar.QueryStringParameters

/-- Encoding flag of a response-translation outcome, none on failure. -/
def respFlagOf (e : Except AdapterError AdapterResponse) : Option Bool :=
  match e with
  | .ok a => some a.IsBase64Encoded
  | .error _ => none

/-- Body of a response-translation outcome, none on failure. -/
def respBodyOf (e : Except AdapterError AdapterResponse) : Option (List Nat) :=
  match e with
  | .ok a => some a.Body
  | .error _ => none

/-- Body carried by a request-translation outcome, none on failure. -/
def toReqBody (e : Except AdapterError GoHttpRequest) : Option (List Nat) :=
  match e with
  | .ok r => some r.body
  | .error _ => none

/-- Concrete inbound event with a base64 body QQ== (the bytes 81 81 61 61)
and the base64 flag set, used for concrete instantiations. -/
def sampleBase64Event : AdapterRequest :=
  { baseRequest with
    Path := "/p"
    HTTPMethod := "GET"
    IsBase64Encoded := true
    Body := [81, 81, 61, 61] }

/-- Concrete inbound event carrying both query maps, used for concrete
instantiations. -/
def sampleQueryEvent : AdapterRequest :=
  { baseRequest with
    Path := "/p"
    HTTPMethod := "GET"
    MultiValueQueryStringParameters := [("a", ["1", "2"])]
    QueryStringParameters := [("z", "9")] }

/-- Concrete inbound event carrying single- and multi-value headers, used
for concrete instantiations. -/
def sampleHeaderEvent : AdapterRequest :=
  { baseRequest with
    Path := "/p"
    HTTPMethod := "GET"
    Headers := [("x-api-key", "k"), ("Accept", "t")]
    MultiValueHeaders := [("X-Multi", ["1"])] }

/-- Concrete inbound event with one multi-value query parameter only, used
for concrete instantiations. -/
def sampleMutationEvent : AdapterRequest :=
  { baseRequest with
    Path := "/p"
    HTTPMethod := "GET"
    MultiValueQueryStringParameters := [("a", ["1"])] }

/-- Concrete captured response carrying the text Hello World! with status
200, used for concrete instantiations. -/
def sampleTextResponse : GoHttpResponse :=
  { statusCode := 200
    header := [("X", ["y"])]
    bodyRead := Except.ok (strBytes "Hello World!") }

/-- Adapter response produced from sampleTextResponse. -/
def sampleTextAdapterResponse : AdapterResponse :=
  { StatusCode := 200
    StatusDescription := ""
    Headers := []
    MultiValueHeaders := [("X", ["y"])]
    Body := strBytes "Hello World!"
    IsBase64Encoded := false }

/-- Concrete inbound event with an undecodable base64 body (a lone
semicolon byte) and a non-empty multi-value query map, used for concrete
instantiations. -/
def sampleBadBase64QueryEvent : AdapterRequest :=
  { baseRequest with
    Path := "/p"
    HTTPMethod := "GET"
    IsBase64Encoded := true
    Body := [59]
    MultiValueQueryStringParameters := [("a", ["1"])] }

/-- Alphabet indexing inverts alphabet lookup on six-bit values. -/
theorem b64Index_b64Chr : ∀ v : Nat, v < 64 → b64Index (b64Chr v) = some v := by decide

/-- Alphabet bytes are never the pad byte. -/
theorem b64Chr_ne_pad : ∀ v : Nat, v < 64 → b64Chr v ≠ 61 := by decide

/-- Alphabet bytes are never a newline or carriage return (b64Chr is at
least 43 on every input). -/
theorem b64Chr_ne_newline (v : Nat) : b64Chr v ≠ 10 ∧ b64Chr v ≠ 13 := by
  unfold b64Chr
  split <;> try omega
  split <;> try omega
  split <;> try omega
  split <;> omega

/-- The base64 encoding of any byte list contains no newline and no
carriage return, so the newline-skipping pass of the Go decoder leaves it
unchanged. -/
theorem base64Encode_no_newline (l : List Nat) :
    ∀ x ∈ base64Encode l, ¬(x = 10 ∨ x = 13) := by
  induction l using base64Encode.induct with
  | case1 => intro x hx; cases hx
  | case2 a =>
    intro x hx
    simp only [base64Encode, List.mem_cons, List.not_mem_nil, or_false] at hx
    rcases hx with h | h | h | h <;> subst h <;>
      first
        | exact fun hc => hc.elim (fun he => (b64Chr_ne_newline _).1 he)
            (fun he => (b64Chr_ne_newline _).2 he)
        | omega
  | case3 a b =>
    intro x hx
    simp only [base64Encode, List.mem_cons, List.not_mem_nil, or_false] at hx
    rcases hx with h | h | h | h <;> subst h <;>
      first
        | exact fun hc => hc.elim (fun he => (b64Chr_ne_newline _).1 he)
            (fun he => (b64Chr_ne_newline _).2 he)
        | omega
  | case4 a b c rest ih =>
    intro x hx
    simp only [base64Encode, List.mem_cons] at hx
    rcases hx with h | h | h | h | h
    · subst h
      exact fun hc => hc.elim (fun he => (b64Chr_ne_newline _).1 he)
        (fun he => (b64Chr_ne_newline _).2 he)
    · subst h
      exact fun hc => hc.elim (fun he => (b64Chr_ne_newline _).1 he)
        (fun he => (b64Chr_ne_newline _).2 he)
    · subst h
      exact fun hc => hc.elim (fun he => (b64Chr_ne_newline _).1 he)
        (fun he => (b64Chr_ne_newline _).2 he)
    · subst h
      exact fun hc => hc.elim (fun he => (b64Chr_ne_newline _).1 he)
        (fun he => (b64Chr_ne_newline _).2 he)
    · exact ih x h

/-- Reduction of the decoder on one two-pad quantum. -/
theorem base64Decode_padTwo {c1 c2 v1 v2 : Nat}
    (h1 : b64Index c1 = some v1) (h2 : b64Index c2 = some v2) :
    base64Decode [c1, c2, 61, 61] = some [v1 * 4 + v2 / 16] := by
  simp only [base64Decode, h1, h2, and_self, reduceIte]

/-- Reduction of the decoder on one single-pad quantum. -/
theorem base64Decode_padOne {c1 c2 c3 v1 v2 v3 : Nat}
    (h1 : b64Index c1 = some v1) (h2 : b64Index c2 = some v2)
    (h3 : b64Index c3 = some v3) (hc3 : c3 ≠ 61) :
    base64Decode [c1, c2, c3, 61] = some [v1 * 4 + v2 / 16, v2 % 16 * 16 + v3 / 4] := by
  simp only [base64Decode, h1, h2, h3, if_neg hc3, reduceIte]

/-- Reduction of the decoder on one full quantum followed by a decodable
remainder. -/
theorem base64Decode_quad {c1 c2 c3 c4 v1 v2 v3 v4 : Nat} {rest tail : List Nat}
    (h1 : b64Index c1 = some v1) (h2 : b64Index c2 = some v2)
    (h3 : b64Index c3 = some v3) (h4 : b64Index c4 = some v4)
    (hc3 : c3 ≠ 61) (hc4 : c4 ≠ 61) (hrest : base64Decode rest = some tail) :
    base64Decode (c1 :: c2 :: c3 :: c4 :: rest) =
      some ((v1 * 4 + v2 / 16) :: (v2 % 16 * 16 + v3 / 4) :: (v3 % 4 * 64 + v4) :: tail) := by
  simp only [base64Decode, h1, h2, h3, h4, hrest, if_neg hc3, if_neg hc4]

/-- Strict decoding inverts encoding on byte lists. -/
theorem base64Decode_encode (l : List Nat) (h : ∀ x ∈ l, x < 256) :
    base64Decode (base64Encode l) = some l := by
  induction l using base64Encode.induct with
  | case1 => rfl
  | case2 a =>
    have ha : a < 256 := h a (by simp)
    show base64Decode [b64Chr (a / 4), b64Chr (a % 4 * 16), 61, 61] = some [a]
    rw [base64Decode_padTwo (b64Index_b64Chr _ (by omega)) (b64Index_b64Chr _ (by omega))]
    have : a / 4 * 4 + a % 4 * 16 / 16 = a := by omega
    rw [this]
  | case3 a b =>
    have ha : a < 256 := h a (by simp)
    have hb : b < 256 := h b (by simp)
    show base64Decode [b64Chr (a / 4), b64Chr (a % 4 * 16 + b / 16),
      b64Chr (b % 16 * 4), 61] = some [a, b]
    rw [base64Decode_padOne (b64Index_b64Chr _ (by omega)) (b64Index_b64Chr _ (by omega))
      (b64Index_b64Chr _ (by omega)) (b64Chr_ne_pad _ (by omega))]
    have h1 : a / 4 * 4 + (a % 4 * 16 + b / 16) / 16 = a := by omega
    have h2 : (a % 4 * 16 + b / 16) % 16 * 16 + b % 16 * 4 / 4 = b := by omega
    rw [h1, h2]
  | case4 a b c rest ih =>
    have ha : a < 256 := h a (by simp)
    have hb : b < 256 := h b (by simp)
    have hc : c < 256 := h c (by simp)
    have hrest : ∀ x ∈ rest, x < 256 := fun x hx => h x (by simp [hx])
    show base64Decode (b64Chr (a / 4) :: b64Chr (a % 4 * 16 + b / 16) ::
      b64Chr (b % 16 * 4 + c / 64) :: b64Chr (c % 64) :: base64Encode rest) =
      some (a :: b :: c :: rest)
    rw [base64Decode_quad (b64Index_b64Chr _ (by omega)) (b64Index_b64Chr _ (by omega))
      (b64Index_b64Chr _ (by omega)) (b64Index_b64Chr _ (by omega))
      (b64Chr_ne_pad _ (by omega)) (b64Chr_ne_pad _ (by omega)) (ih hrest)]
    have h1 : a / 4 * 4 + (a % 4 * 16 + b / 16) / 16 = a := by omega
    have h2 : (a % 4 * 16 + b / 16) % 16 * 16 + (b % 16 * 4 + c / 64) / 4 = b := by omega
    have h3 : (b % 16 * 4 + c / 64) % 4 * 64 + c % 64 = c := by omega
    rw [h1, h2, h3]

/-- Round trip through the modelled Go decoder: decoding the base64
encoding of any byte list recovers it exactly. -/
theorem base64DecodeGo_encode (l : List Nat) (h : ∀ x ∈ l, x < 256) :
    base64DecodeGo (base64Encode l) = some l := by
  unfold base64DecodeGo
  have hf : (base64Encode l).filter (fun b => !(b == 10 || b == 13)) = base64Encode l := by
    rw [List.filter_eq_self]
    intro x hx
    have := base64Encode_no_newline l x hx
    simp only [Bool.not_eq_true', Bool.or_eq_false_iff, beq_eq_false_iff_ne]
    omega
  rw [hf]
  exact base64Decode_encode l h

/-- Data of a concatenation of strings. -/
theorem strApp_data (a b : String) : (a ++ b).data = a.data ++ b.data := by
  cases a; cases b; rfl

/-- Concatenation of strings is associative. -/
theorem strApp_assoc (a b c : String) : a ++ b ++ c = a ++ (b ++ c) := by
  cases a; cases b; cases c
  exact congrArg String.mk (List.append_assoc _ _ _)

/-- The empty string is a right identity of concatenation. -/
theorem strApp_empty (a : String) : a ++ "" = a := by
  cases a; exact congrArg String.mk (List.append_nil _)

/-- The empty string is a left identity of concatenation. -/
theorem strEmpty_app (a : String) : "" ++ a = a := by
  cases a; exact congrArg String.mk (List.nil_append _)

/-- A string with non-empty character data is not the empty string. -/
theorem strNe_of_data (a : String) (h : a.data ≠ []) : a ≠ "" := by
  intro hc; exact h (by rw [hc])

/-- Unfolding of joinAmp on a non-empty list. -/
theorem joinAmp_cons (p : String) (r : List String) :
    joinAmp (p :: r) = p ++ ampSuffix r := by
  induction r generalizing p with
  | nil => simp [joinAmp, ampSuffix, strApp_empty]
  | cons q r2 ih => simp only [joinAmp, ampSuffix, ih q, strApp_assoc]

/-- Folding the query-append step over any pieces from a non-empty
accumulator appends each piece after an ampersand. -/
theorem foldl_queryAppendStep_acc (l : List String) :
    ∀ acc : String, acc ≠ "" → l.foldl queryAppendStep acc = acc ++ ampSuffix l := by
  induction l with
  | nil => intro acc _; simp [ampSuffix, strApp_empty]
  | cons p r ih =>
    intro acc h
    rw [List.foldl_cons]
    have hstep : queryAppendStep acc p = acc ++ "&" ++ p := by
      unfold queryAppendStep; rw [if_neg h]
    have hne : queryAppendStep acc p ≠ "" := by
      rw [hstep]
      apply strNe_of_data
      rw [strApp_data, strApp_data]
      simp
    rw [ih _ hne, hstep]
    simp only [ampSuffix, strApp_assoc]

/-- Folding the query-append step from the empty accumulator over
non-empty pieces joins them with ampersands: the conditional ampersand
insertion of the Go loop implements exactly an intercalation. -/
theorem foldl_queryAppendStep (l : List String) (h : ∀ p ∈ l, p ≠ "") :
    l.foldl queryAppendStep "" = joinAmp l := by
  cases l with
  | nil => rfl
  | cons p r =>
    rw [List.foldl_cons]
    have hstep : queryAppendStep "" p = p := by
      unfold queryAppendStep
      rw [if_pos rfl]
      exact strEmpty_app p
    rw [hstep, foldl_queryAppendStep_acc r p (h p (by simp)), joinAmp_cons]

/-- An escaped query pair is never the empty string (it contains the
equals sign). -/
theorem queryPiece_ne_empty (k v : String) : queryPiece k v ≠ "" := by
  apply strNe_of_data
  unfold queryPiece
  rw [strApp_data, strApp_data]
  have : ("=" : String).data = ['='] := rfl
  rw [this]
  simp

/-- The nested multi-value loops of ToRequest produce the escaped pairs of
the flattened map joined with ampersands. -/
theorem buildMultiValueQueryString_eq (m : List (String × List String)) :
    buildMultiValueQueryString m = joinAmp (multiValuePieces m) := by
  have hpieces : ∀ p ∈ multiValuePieces m, p ≠ "" := by
    intro p hp
    unfold multiValuePieces at hp
    simp only [List.mem_flatten, List.mem_map] at hp
    obtain ⟨l, ⟨kv, _, hl⟩, hpl⟩ := hp
    rw [← hl] at hpl
    simp only [List.mem_map] at hpl
    obtain ⟨v, _, hv⟩ := hpl
    rw [← hv]
    exact queryPiece_ne_empty kv.1 v
  rw [← foldl_queryAppendStep _ hpieces]
  unfold multiValuePieces
  rw [List.foldl_flatten, List.foldl_map]
  unfold buildMultiValueQueryString
  congr 1
  funext qs kv
  rw [List.foldl_map]

/-- The backward-compatibility single-value loop of ToRequest produces the
escaped pairs joined with ampersands. -/
theorem buildQueryString_eq (m : List (String × String)) :
    buildQueryString m = joinAmp (singleValuePieces m) := by
  unfold buildQueryString singleValuePieces
  rw [← List.foldl_map (fun kv : String × String => queryPiece kv.1 kv.2) queryAppendStep]
  apply foldl_queryAppendStep
  intro p hp
  simp only [List.mem_map] at hp
  obtain ⟨kv, _, hkv⟩ := hp
  rw [← hkv]
  exact queryPiece_ne_empty kv.1 kv.2

/-- Query appending touches only the Path field. -/
theorem applyQuery_HTTPMethod (ar : AdapterRequest) :
    (applyQuery ar).HTTPMethod = ar.HTTPMethod := by
  unfold applyQuery
  split
  · rfl
  · split
    · rfl
    · rfl

/-- Query appending touches only the Path field. -/
theorem applyQuery_Headers (ar : AdapterRequest) : (applyQuery ar).Headers = ar.Headers := by
  unfold applyQuery
  split
  · rfl
  · split
    · rfl
    · rfl

/-- Query appending touches only the Path field. -/
theorem applyQuery_queryMaps (ar : AdapterRequest) :
    (applyQuery ar).MultiValueQueryStringParameters = ar.MultiValueQueryStringParameters ∧
    (applyQuery ar).QueryStringParameters = ar.QueryStringParameters := by
  unfold applyQuery
  split
  · exact ⟨rfl, rfl⟩
  · split
    · exact ⟨rfl, rfl⟩
    · exact ⟨rfl, rfl⟩

/-- Query appending touches only the Path field. -/
theorem applyQuery_body (ar : AdapterRequest) :
    (applyQuery ar).Body = ar.Body ∧ (applyQuery ar).IsBase64Encoded = ar.IsBase64Encoded := by
  unfold applyQuery
  split
  · exact ⟨rfl, rfl⟩
  · split
    · exact ⟨rfl, rfl⟩
    · exact ⟨rfl, rfl⟩

/-- Path produced by the query-appending step, by cases on the maps. -/
theorem applyQuery_Path (ar : AdapterRequest) :
    (applyQuery ar).Path =
      if ar.MultiValueQueryStringParameters ≠ [] then
        ar.Path ++ "?" ++ buildMultiValueQueryString ar.MultiValueQueryStringParameters
      else if ar.QueryStringParameters ≠ [] then
        ar.Path ++ "?" ++ buildQueryString ar.QueryStringParameters
      else ar.Path := by
  unfold applyQuery
  split
  · rfl
  · split <;> rfl

/-- The body step is the identity when the base64 flag is clear. -/
theorem decodeBodyStep_flagClear (ar : AdapterRequest) (h : ar.IsBase64Encoded = false) :
    decodeBodyStep ar = Except.ok ar.Body := by
  unfold decodeBodyStep
  rw [h]
  rfl

/-- The body step decodes when the base64 flag is set and the body is
well-formed base64. -/
theorem decodeBodyStep_flagSet (ar : AdapterRequest) (h : ar.IsBase64Encoded = true)
    (b : List Nat) (hd : base64DecodeGo ar.Body = some b) :
    decodeBodyStep ar = Except.ok b := by
  unfold decodeBodyStep
  rw [h, hd]
  rfl

/-- The body step fails with the malformed-body error when the base64 flag
is set and the body is not well-formed base64. -/
theorem decodeBodyStep_flagSetBad (ar : AdapterRequest) (h : ar.IsBase64Encoded = true)
    (hd : base64DecodeGo ar.Body = none) :
    decodeBodyStep ar = Except.error AdapterError.malformedBody := by
  unfold decodeBodyStep
  rw [h, hd]
  rfl

/-- ToRequest returns the body-decoding error and leaves the receiver
untouched when body decoding fails. -/
theorem toRequest_error_of_decode (ar : AdapterRequest) (env : Option String)
    (e : AdapterError) (h : decodeBodyStep ar = Except.error e) :
    ar.ToRequest env = (Except.error e, ar) := by
  unfold AdapterRequest.ToRequest
  rw [h]

/-- Reduction of ToRequest once body decoding has succeeded. -/
theorem toRequest_ok_of_decode (ar : AdapterRequest) (env : Option String)
    (b : List Nat) (h : decodeBodyStep ar = Except.ok b) :
    ar.ToRequest env =
      (match NewRequest (goToUpper (applyQuery ar).HTTPMethod) (applyQuery ar).Path b with
       | .error e => (.error e, applyQuery ar)
       | .ok req => (.ok (withHeaders req (applyQuery ar).Headers), applyQuery ar)) := by
  unfold AdapterRequest.ToRequest
  rw [h]

/-- The receiver returned by ToRequest: unchanged on a body-decoding
failure, the query-appended receiver otherwise. -/
theorem toRequest_snd (ar : AdapterRequest) (env : Option String) :
    (ar.ToRequest env).2 =
      match decodeBodyStep ar with
      | .error _ => ar
      | .ok _ => applyQuery ar := by
  cases hd : decodeBodyStep ar with
  | error e => rw [toRequest_error_of_decode ar env e hd]
  | ok b =>
    rw [toRequest_ok_of_decode ar env b hd]
    split <;> rfl

/-- Everything ToRequest guarantees about a successfully produced request:
its URL is the query-appended Path of the receiver (not the base-path
stripped, host-prefixed composition), its headers are the canonicalised
single-value headers, its body is the decoded event body, its method is
the effective method, the method token is valid, and the receiver ends in
the query-appended state. -/
theorem toRequest_ok_spec (ar : AdapterRequest) (env : Option String) (req : GoHttpRequest)
    (hok : (ar.ToRequest env).1 = Except.ok req) :
    req.url = (applyQuery ar).Path ∧
    req.headers = ar.Headers.map (fun kv => (canonicalMIMEHeaderKey kv.1, kv.2)) ∧
    decodeBodyStep ar = Except.ok req.body ∧
    req.method = effectiveMethod ar.HTTPMethod ∧
    validMethod (effectiveMethod ar.HTTPMethod) = true ∧
    (ar.ToRequest env).2 = applyQuery ar := by
  cases hd : decodeBodyStep ar with
  | error e =>
    rw [toRequest_error_of_decode ar env e hd] at hok
    exact Except.noConfusion hok
  | ok b =>
    have hsnd := toRequest_snd ar env
    rw [hd] at hsnd
    rw [toRequest_ok_of_decode ar env b hd] at hok
    unfold NewRequest at hok
    rw [applyQuery_HTTPMethod] at hok
    by_cases hv : validMethod (effectiveMethod ar.HTTPMethod) = true
    · rw [show (if goToUpper ar.HTTPMethod = "" then "GET" else goToUpper ar.HTTPMethod)
          = effectiveMethod ar.HTTPMethod from rfl, if_pos hv] at hok
      simp only [Except.ok.injEq] at hok
      rw [← hok]
      refine ⟨rfl, ?_, ?_, rfl, hv, hsnd⟩
      · unfold withHeaders
        rw [applyQuery_Headers]
      · rfl
    · rw [show (if goToUpper ar.HTTPMethod = "" then "GET" else goToUpper ar.HTTPMethod)
          = effectiveMethod ar.HTTPMethod from rfl,
          if_neg hv] at hok
      exact Except.noConfusion hok

/-- Successful production of a request from known-good components: with a
decodable body and a valid effective method, ToRequest succeeds and the
produced request is determined. -/
theorem toRequest_fst_ok (ar : AdapterRequest) (env : Option String) (b : List Nat)
    (hd : decodeBodyStep ar = Except.ok b)
    (hv : validMethod (effectiveMethod ar.HTTPMethod) = true) :
    (ar.ToRequest env).1 = Except.ok (withHeaders
      { method := effectiveMethod ar.HTTPMethod, url := (applyQuery ar).Path,
        headers := [], body := b, reqCtx := none } (applyQuery ar).Headers) := by
  rw [toRequest_ok_of_decode ar env b hd]
  unfold NewRequest
  rw [applyQuery_HTTPMethod]
  rw [show (if goToUpper ar.HTTPMethod = "" then "GET" else goToUpper ar.HTTPMethod)
      = effectiveMethod ar.HTTPMethod from rfl, if_pos hv]

/-- Path after query appending, when at least one query map is
non-empty. -/
theorem applyQuery_Path_query (ar : AdapterRequest)
    (hne : ar.MultiValueQueryStringParameters ≠ [] ∨ ar.QueryStringParameters ≠ []) :
    (applyQuery ar).Path = ar.Path ++ "?" ++ queryStringOf ar := by
  rw [applyQuery_Path]
  unfold queryStringOf
  by_cases hmv : ar.MultiValueQueryStringParameters ≠ []
  · rw [if_pos hmv, if_pos hmv]
  · rw [if_neg hmv, if_neg hmv, if_pos (hne.resolve_left hmv)]

/-- The appended query string is computed from the query maps only, which
the query-appending step leaves unchanged. -/
theorem queryStringOf_applyQuery (ar : AdapterRequest) :
    queryStringOf (applyQuery ar) = queryStringOf ar := by
  unfold queryStringOf
  rw [(applyQuery_queryMaps ar).1, (applyQuery_queryMaps ar).2]

/-- Reduction of NewAdapterResponse once the body has been read. -/
theorem newAdapterResponse_ok (r : GoHttpResponse) (rb : List Nat)
    (hr : r.bodyRead = Except.ok rb) :
    NewAdapterResponse r = Except.ok
      { StatusCode := r.statusCode
        StatusDescription := ""
        Headers := []
        MultiValueHeaders := r.header
        Body := (if utf8Valid rb then (rb, false) else (base64Encode rb, true)).1
        IsBase64Encoded := (if utf8Valid rb then (rb, false) else (base64Encode rb, true)).2 } := by
  unfold NewAdapterResponse
  rw [hr]

/-- Claim C1: for the event with path /api/hello, method get, empty
headers and body, base64 flag clear, and the host override set to
https://example.com, ToRequest is claimed to succeed with method GET and
the absolute URL https://example.com/api/hello. Evaluation of the code at
exactly this input: ToRequest does succeed, the method is GET, but the
URL of the produced request is the bare /api/hello — http.NewRequest
receives ar.Path, while the host-prefixed composition of the source is
assigned to a local variable that is never used, contradicting the
documentation comment of DefaultServerAddress in the source. -/
theorem claim_C1_eval :
    ((({ baseRequest with Path := "/api/hello", HTTPMethod := "get" } : AdapterRequest).ToRequest
        (some "https://example.com")).1
      = Except.ok (⟨"GET", "/api/hello", [], [], none⟩ : GoHttpRequest))
    ∧ ("/api/hello" : String) ≠ "https://example.com/api/hello" := by
  exact ⟨by decide, by decide⟩

/-- Claim C2: the path used in the synthetic request is claimed to have a
configured base-path prefix stripped once and to always start with a
slash. Evaluation of the code at concrete inputs: with the override /api
configured and event path /api/hello the produced request still has URL
/api/hello (nothing stripped), and an event path without a leading slash
reaches the request URL without one; the stripped and slash-prefixed
composition (resolvePath, which would give /hello) only feeds the unused
local variable of the source. -/
theorem claim_C2_eval :
    (((({ baseRequest with Path := "/api/hello", HTTPMethod := "GET" } :
          AdapterRequest).StripBasePath "/api").2.ToRequest none).1
      = Except.ok (⟨"GET", "/api/hello", [], [], none⟩ : GoHttpRequest))
    ∧ ((({ baseRequest with Path := "hello", HTTPMethod := "GET" } :
          AdapterRequest).ToRequest none).1
      = Except.ok (⟨"GET", "hello", [], [], none⟩ : GoHttpRequest))
    ∧ resolvePath "/api" "/api/hello" = "/hello" := by
  exact ⟨by decide, by decide, by decide⟩

/-- Claim C10: StripBasePath normalises before storing — an empty or
all-space input clears the stored base path and returns the empty string;
otherwise a leading slash is added when missing, a single trailing slash
is removed, and the normalised value is stored and returned. A stored
base path of byte length at most one never strips anything in the
path-resolution step, whose guard requires length strictly greater than
one. -/
theorem claim_C10 (ar : AdapterRequest) (s p strip : String) :
    (goTrimSpaces s = "" → ar.StripBasePath s = ("", { ar with stripBasePath := "" })) ∧
    (goTrimSpaces s ≠ "" →
       (ar.StripBasePath s).1 =
         (if goEndsWith (if goStartsWith s "/" then s else "/" ++ s) "/"
          then dropLastChar (if goStartsWith s "/" then s else "/" ++ s)
          else (if goStartsWith s "/" then s else "/" ++ s)) ∧
       (ar.StripBasePath s).2 = { ar with stripBasePath := (ar.StripBasePath s).1 }) ∧
    (goLen strip ≤ 1 → resolvePath strip p = (if goStartsWith p "/" then p else "/" ++ p)) := by
  refine ⟨?_, ?_, ?_⟩
  · intro h
    unfold AdapterRequest.StripBasePath
    rw [if_pos h]
  · intro h
    unfold AdapterRequest.StripBasePath
    rw [if_neg h]
    exact ⟨rfl, rfl⟩
  · intro h
    have hcond : ¬(strip ≠ "" ∧ goLen strip > 1) := fun hc => absurd hc.2 (by omega)
    unfold resolvePath
    rw [if_neg hcond]

/-- Concrete instantiation of claim C10: the input api/ is normalised to
/api and stored, and a stored slash of length one strips nothing. -/
theorem claim_C10_witness :
    (goTrimSpaces "api/" = "" →
       baseRequest.StripBasePath "api/" = ("", { baseRequest with stripBasePath := "" })) ∧
    (goTrimSpaces "api/" ≠ "" →
       (baseRequest.StripBasePath "api/").1 =
         (if goEndsWith (if goStartsWith "api/" "/" then "api/" else "/" ++ "api/") "/"
          then dropLastChar (if goStartsWith "api/" "/" then "api/" else "/" ++ "api/")
          else (if goStartsWith "api/" "/" then "api/" else "/" ++ "api/")) ∧
       (baseRequest.StripBasePath "api/").2 =
         { baseRequest with stripBasePath := (baseRequest.StripBasePath "api/").1 }) ∧
    (goLen "/" ≤ 1 →
       resolvePath "/" "hello" = (if goStartsWith "hello" "/" then "hello" else "/" ++ "hello")) :=
  claim_C10 baseRequest "api/" "hello" "/"

/-- Claim C3: for every captured response body, valid UTF-8 bytes are
emitted as-is with the base64 flag clear, any other bytes are emitted
base64-encoded with the flag set and decoding recovers them exactly; the
decision depends only on the bytes (a second response with the same body
but any other headers or status gets the same flag and body). -/
theorem claim_C3 (rb : List Nat) (h : ∀ x ∈ rb, x < 256)
    (r r2 : GoHttpResponse) (hr : r.bodyRead = Except.ok rb)
    (hr2 : r2.bodyRead = r.bodyRead) :
    (utf8Valid rb = true →
       respFlagOf (NewAdapterResponse r) = some false ∧
       respBodyOf (NewAdapterResponse r) = some rb) ∧
    (utf8Valid rb = false →
       respFlagOf (NewAdapterResponse r) = some true ∧
       (respBodyOf (NewAdapterResponse r)).bind base64DecodeGo = some rb) ∧
    respFlagOf (NewAdapterResponse r2) = respFlagOf (NewAdapterResponse r) ∧
    respBodyOf (NewAdapterResponse r2) = respBodyOf (NewAdapterResponse r) := by
  rw [newAdapterResponse_ok r rb hr, newAdapterResponse_ok r2 rb (by rw [hr2, hr])]
  cases hu : utf8Valid rb with
  | true =>
    refine ⟨fun _ => ⟨rfl, rfl⟩, fun hfalse => ?_, rfl, rfl⟩
    exact Bool.noConfusion hfalse
  | false =>
    refine ⟨fun htrue => ?_, fun _ => ?_, rfl, rfl⟩
    · exact Bool.noConfusion htrue
    · refine ⟨rfl, ?_⟩
      show (some (base64Encode rb)).bind base64DecodeGo = some rb
      rw [Option.some_bind]
      exact base64DecodeGo_encode rb h

/-- Concrete instantiation of claim C3 at the single invalid-UTF-8 byte
200: the response is emitted base64-encoded and decodes back. -/
theorem claim_C3_witness :
    (∀ x ∈ [200], x < 256) ∧
    (⟨200, [], Except.ok [200]⟩ : GoHttpResponse).bodyRead = Except.ok [200] ∧
    (⟨500, [("X", ["y"])], Except.ok [200]⟩ : GoHttpResponse).bodyRead =
      (⟨200, [], Except.ok [200]⟩ : GoHttpResponse).bodyRead ∧
    ((utf8Valid [200] = true →
       respFlagOf (NewAdapterResponse ⟨200, [], Except.ok [200]⟩) = some false ∧
       respBodyOf (NewAdapterResponse ⟨200, [], Except.ok [200]⟩) = some [200]) ∧
    (utf8Valid [200] = false →
       respFlagOf (NewAdapterResponse ⟨200, [], Except.ok [200]⟩) = some true ∧
       (respBodyOf (NewAdapterResponse ⟨200, [], Except.ok [200]⟩)).bind base64DecodeGo
         = some [200]) ∧
    respFlagOf (NewAdapterResponse ⟨500, [("X", ["y"])], Except.ok [200]⟩) =
      respFlagOf (NewAdapterResponse ⟨200, [], Except.ok [200]⟩) ∧
    respBodyOf (NewAdapterResponse ⟨500, [("X", ["y"])], Except.ok [200]⟩) =
      respBodyOf (NewAdapterResponse ⟨200, [], Except.ok [200]⟩)) :=
  ⟨by decide, by decide, by decide,
    claim_C3 [200] (by decide) ⟨200, [], Except.ok [200]⟩
      ⟨500, [("X", ["y"])], Except.ok [200]⟩ (by decide) (by decide)⟩

/-- Claim C4: when the base64 flag is clear the produced request body is
byte-identical to the event body; when the flag is set and the body is
well-formed base64 the produced request body is the exact decoding; when
the flag is set and the body is not well-formed base64, ToRequest fails
with the malformed-body error and no request is produced. (A produced
body can also be absent when http.NewRequest itself rejects the method
token, which is the none disjunct.) -/
theorem claim_C4 (env : Option String) (ar : AdapterRequest) :
    (ar.IsBase64Encoded = false →
       toReqBody ((ar.ToRequest env).1) = none ∨
       toReqBody ((ar.ToRequest env).1) = some ar.Body) ∧
    (ar.IsBase64Encoded = true → base64DecodeGo ar.Body ≠ none →
       toReqBody ((ar.ToRequest env).1) = none ∨
       toReqBody ((ar.ToRequest env).1) = base64DecodeGo ar.Body) ∧
    (ar.IsBase64Encoded = true → base64DecodeGo ar.Body = none →
       (ar.ToRequest env).1 = Except.error AdapterError.malformedBody) := by
  refine ⟨?_, ?_, ?_⟩
  · intro hflag
    cases hres : (ar.ToRequest env).1 with
    | error e => left; rfl
    | ok req =>
      right
      have hspec := (toRequest_ok_spec ar env req hres).2.2.1
      rw [decodeBodyStep_flagClear ar hflag] at hspec
      simp only [Except.ok.injEq] at hspec
      show some req.body = some ar.Body
      rw [hspec]
  · intro hflag hne
    cases hbd : base64DecodeGo ar.Body with
    | none => exact absurd hbd hne
    | some b =>
      cases hres : (ar.ToRequest env).1 with
      | error e => left; rfl
      | ok req =>
        right
        have hspec := (toRequest_ok_spec ar env req hres).2.2.1
        rw [decodeBodyStep_flagSet ar hflag b hbd] at hspec
        simp only [Except.ok.injEq] at hspec
        show some req.body = some b
        rw [hspec]
  · intro hflag hbad
    rw [toRequest_error_of_decode ar env AdapterError.malformedBody
      (decodeBodyStep_flagSetBad ar hflag hbad)]

/-- Concrete instantiation of claim C4 at a base64 event body QQ==. -/
theorem claim_C4_witness :
    (sampleBase64Event.IsBase64Encoded = false →
       toReqBody ((sampleBase64Event.ToRequest none).1) = none ∨
       toReqBody ((sampleBase64Event.ToRequest none).1) = some sampleBase64Event.Body) ∧
    (sampleBase64Event.IsBase64Encoded = true →
       base64DecodeGo sampleBase64Event.Body ≠ none →
       toReqBody ((sampleBase64Event.ToRequest none).1) = none ∨
       toReqBody ((sampleBase64Event.ToRequest none).1)
         = base64DecodeGo sampleBase64Event.Body) ∧
    (sampleBase64Event.IsBase64Encoded = true →
       base64DecodeGo sampleBase64Event.Body = none →
       (sampleBase64Event.ToRequest none).1 = Except.error AdapterError.malformedBody) :=
  claim_C4 none sampleBase64Event

/-- Claim C5: when the multi-value query map is non-empty it alone
determines the query string — the URL is the path followed by a question
mark and the escaped pairs of the flattened multi-value map joined with
ampersands, independently of the single-value map; when only the
single-value map is non-empty its escaped pairs are used; when both are
empty nothing is appended. -/
theorem claim_C5 (env : Option String) (ar : AdapterRequest) (req : GoHttpRequest)
    (hok : (ar.ToRequest env).1 = Except.ok req) :
    (ar.MultiValueQueryStringParameters ≠ [] →
       req.url = ar.Path ++ "?" ++
         joinAmp (multiValuePieces ar.MultiValueQueryStringParameters)) ∧
    (ar.MultiValueQueryStringParameters = [] → ar.QueryStringParameters ≠ [] →
       req.url = ar.Path ++ "?" ++ joinAmp (singleValuePieces ar.QueryStringParameters)) ∧
    (ar.MultiValueQueryStringParameters = [] → ar.QueryStringParameters = [] →
       req.url = ar.Path) ∧
    (ar.MultiValueQueryStringParameters ≠ [] → ∀ qsp2, ∃ req2,
       (({ ar with QueryStringParameters := qsp2 } : AdapterRequest).ToRequest env).1
           = Except.ok req2 ∧ req2.url = req.url) := by
  obtain ⟨hurl, hheaders, hbody, hmeth, hv, hsnd⟩ := toRequest_ok_spec ar env req hok
  rw [applyQuery_Path] at hurl
  refine ⟨?_, ?_, ?_, ?_⟩
  · intro hmv
    rw [hurl, if_pos hmv, buildMultiValueQueryString_eq]
  · intro hmv hq
    rw [hurl, if_neg (fun hc => hc hmv), if_pos hq, buildQueryString_eq]
  · intro hmv hq
    rw [hurl, if_neg (fun hc => hc hmv), if_neg (fun hc => hc hq)]
  · intro hmv qsp2
    have hd2 : decodeBodyStep { ar with QueryStringParameters := qsp2 }
        = Except.ok req.body := hbody
    have hv2 : validMethod (effectiveMethod
        ({ ar with QueryStringParameters := qsp2 } : AdapterRequest).HTTPMethod) = true := hv
    refine ⟨_, toRequest_fst_ok _ env req.body hd2 hv2, ?_⟩
    show (applyQuery { ar with QueryStringParameters := qsp2 }).Path = req.url
    rw [applyQuery_Path, hurl]
    rw [if_pos (show ({ ar with QueryStringParameters := qsp2 } :
          AdapterRequest).MultiValueQueryStringParameters ≠ [] from hmv), if_pos hmv]

/-- Concrete instantiation of claim C5: both query maps supplied, the URL
carries only the multi-value reconstruction a=1 and a=2. -/
theorem claim_C5_witness :
    ((sampleQueryEvent.ToRequest none).1
        = Except.ok (⟨"GET", "/p?a=1&a=2", [], [], none⟩ : GoHttpRequest)) ∧
    (⟨"GET", "/p?a=1&a=2", [], [], none⟩ : GoHttpRequest).url
        = sampleQueryEvent.Path ++ "?" ++
          joinAmp (multiValuePieces sampleQueryEvent.MultiValueQueryStringParameters) :=
  ⟨by decide,
    (claim_C5 none sampleQueryEvent (⟨"GET", "/p?a=1&a=2", [], [], none⟩ : GoHttpRequest)
      (by decide)).1 (by decide)⟩

/-- Claim C6: the outbound single-value header map is empty in the
adapter response and in the API-Gateway shape (which carries the
multi-value headers and whose struct has no status description at all,
the adapter response keeping an empty one), the multi-value header map
is the captured header map verbatim, and the load-balancer shape is a
field-for-field copy of the adapter response. -/
theorem claim_C6 (r : GoHttpResponse) (a : AdapterResponse)
    (hok : NewAdapterResponse r = Except.ok a) :
    a.Headers = [] ∧ a.StatusDescription = "" ∧ a.MultiValueHeaders = r.header ∧
    a.APIGatewayProxyResponse.Headers = [] ∧
    a.APIGatewayProxyResponse.MultiValueHeaders = r.header ∧
    a.APIGatewayProxyResponse.StatusCode = a.StatusCode ∧
    a.APIGatewayProxyResponse.Body = a.Body ∧
    a.APIGatewayProxyResponse.IsBase64Encoded = a.IsBase64Encoded ∧
    a.ALBTargetGroupResponse = ⟨a.StatusCode, a.StatusDescription, a.Headers,
      a.MultiValueHeaders, a.Body, a.IsBase64Encoded⟩ := by
  cases hbr : r.bodyRead with
  | error e =>
    unfold NewAdapterResponse at hok
    rw [hbr] at hok
    exact Except.noConfusion hok
  | ok rb =>
    rw [newAdapterResponse_ok r rb hbr] at hok
    simp only [Except.ok.injEq] at hok
    subst hok
    exact ⟨rfl, rfl, rfl, rfl, rfl, rfl, rfl, rfl, rfl⟩

/-- Concrete instantiation of claim C6 at the status-200 Hello World!
response. -/
theorem claim_C6_witness :
    NewAdapterResponse sampleTextResponse = Except.ok sampleTextAdapterResponse ∧
    (sampleTextAdapterResponse.Headers = [] ∧
     sampleTextAdapterResponse.StatusDescription = "" ∧
     sampleTextAdapterResponse.MultiValueHeaders = sampleTextResponse.header ∧
     sampleTextAdapterResponse.APIGatewayProxyResponse.Headers = [] ∧
     sampleTextAdapterResponse.APIGatewayProxyResponse.MultiValueHeaders
       = sampleTextResponse.header ∧
     sampleTextAdapterResponse.APIGatewayProxyResponse.StatusCode
       = sampleTextAdapterResponse.StatusCode ∧
     sampleTextAdapterResponse.APIGatewayProxyResponse.Body
       = sampleTextAdapterResponse.Body ∧
     sampleTextAdapterResponse.APIGatewayProxyResponse.IsBase64Encoded
       = sampleTextAdapterResponse.IsBase64Encoded ∧
     sampleTextAdapterResponse.ALBTargetGroupResponse
       = ⟨sampleTextAdapterResponse.StatusCode, sampleTextAdapterResponse.StatusDescription,
          sampleTextAdapterResponse.Headers, sampleTextAdapterResponse.MultiValueHeaders,
          sampleTextAdapterResponse.Body, sampleTextAdapterResponse.IsBase64Encoded⟩) :=
  ⟨by decide, claim_C6 sampleTextResponse sampleTextAdapterResponse (by decide)⟩

/-- Claim C7 as stated is false on the code: http.Header.Add canonicalises
the key, so the single-value entry with key x-api-key does not appear
verbatim on the produced request, whose header set holds X-Api-Key
instead. -/
theorem claim_C7_counterexample :
    ((sampleHeaderEvent.ToRequest none).1
        = Except.ok (⟨"GET", "/p", [("X-Api-Key", "k"), ("Accept", "t")], [], none⟩ :
            GoHttpRequest)) ∧
    ("x-api-key", "k") ∉ [(("X-Api-Key" : String), ("k" : String)), ("Accept", "t")] := by
  exact ⟨by decide, by decide⟩

/-- Claim C7, amended: every single-value header entry appears on the
produced request with its key MIME-canonicalised (as http.Header.Add
stores it) and its value unchanged — a key already in canonical form is
kept verbatim — and the request headers are exactly these entries, so
multi-value headers are never copied. -/
theorem claim_C7 (env : Option String) (ar : AdapterRequest) (req : GoHttpRequest)
    (hok : (ar.ToRequest env).1 = Except.ok req) :
    req.headers = ar.Headers.map (fun kv => (canonicalMIMEHeaderKey kv.1, kv.2)) ∧
    (∀ kv ∈ ar.Headers, (canonicalMIMEHeaderKey kv.1, kv.2) ∈ req.headers) := by
  have h := (toRequest_ok_spec ar env req hok).2.1
  refine ⟨h, fun kv hkv => ?_⟩
  rw [h]
  exact List.mem_map_of_mem _ hkv

/-- Concrete instantiation of amended claim C7: x-api-key is stored as
X-Api-Key with its value unchanged, Accept is kept verbatim, and the
multi-value header X-Multi is absent. -/
theorem claim_C7_witness :
    ((sampleHeaderEvent.ToRequest none).1
        = Except.ok (⟨"GET", "/p", [("X-Api-Key", "k"), ("Accept", "t")], [], none⟩ :
            GoHttpRequest)) ∧
    (⟨"GET", "/p", [("X-Api-Key", "k"), ("Accept", "t")], [], none⟩ : GoHttpRequest).headers
        = sampleHeaderEvent.Headers.map (fun kv => (canonicalMIMEHeaderKey kv.1, kv.2)) :=
  ⟨by decide,
    (claim_C7 none sampleHeaderEvent
      (⟨"GET", "/p", [("X-Api-Key", "k"), ("Accept", "t")], [], none⟩ : GoHttpRequest)
      (by decide)).1⟩

/-- Claim C8: for every event, handler and context, Proxy returns either
a response with no error, or no response with an error wrapping the
failing translation phase; it never returns a response together with an
error. -/
theorem claim_C8 (env : Option String) (ctx : Nat)
    (handler : GoHttpRequest → GoHttpResponse) (ar : AdapterRequest) :
    (∃ a, (ar.Proxy env ctx handler).1 = (some a, none)) ∨
    (∃ e, (ar.Proxy env ctx handler).1 = (none, some (ProxyError.requestPhase e))) ∨
    (∃ e, (ar.Proxy env ctx handler).1 = (none, some (ProxyError.responsePhase e))) := by
  simp only [AdapterRequest.Proxy]
  split
  · right; left; exact ⟨_, rfl⟩
  · split
    · right; right; exact ⟨_, rfl⟩
    · left; exact ⟨_, rfl⟩

/-- Claim C9 as stated is false on the code: with a non-empty multi-value
query map but an undecodable base64 body, ToRequest returns before the
query step, so nothing is appended to the Path of the receiver. -/
theorem claim_C9_counterexample :
    sampleBadBase64QueryEvent.MultiValueQueryStringParameters ≠ [] ∧
    (sampleBadBase64QueryEvent.ToRequest none).2.Path = sampleBadBase64QueryEvent.Path := by
  exact ⟨by decide, by decide⟩

/-- Claim C9, amended: whenever a query map is non-empty and the body is
not rejected as malformed base64 (the only early return before the query
step), ToRequest appends the question mark and query string onto the Path
of its own receiver — so the event is not left unchanged — and a second
call on the mutated receiver produces a URL carrying the query string
twice. -/
theorem claim_C9 (env : Option String) (ar : AdapterRequest)
    (hdec : ar.IsBase64Encoded = true → base64DecodeGo ar.Body ≠ none)
    (hne : ar.MultiValueQueryStringParameters ≠ [] ∨ ar.QueryStringParameters ≠ []) :
    (ar.ToRequest env).2.Path = ar.Path ++ "?" ++ queryStringOf ar ∧
    (ar.ToRequest env).2.Path ≠ ar.Path ∧
    (∀ req2, ((ar.ToRequest env).2.ToRequest env).1 = Except.ok req2 →
       req2.url = ar.Path ++ "?" ++ queryStringOf ar ++ "?" ++ queryStringOf ar) := by
  have hd : ∃ b, decodeBodyStep ar = Except.ok b := by
    cases hflag : ar.IsBase64Encoded with
    | false => exact ⟨ar.Body, decodeBodyStep_flagClear ar hflag⟩
    | true =>
      cases hbd : base64DecodeGo ar.Body with
      | none => exact absurd hbd (hdec hflag)
      | some b => exact ⟨b, decodeBodyStep_flagSet ar hflag b hbd⟩
  obtain ⟨b, hd⟩ := hd
  have hsnd : (ar.ToRequest env).2 = applyQuery ar := by
    rw [toRequest_snd ar env, hd]
  refine ⟨by rw [hsnd, applyQuery_Path_query ar hne], ?_, ?_⟩
  · rw [hsnd, applyQuery_Path_query ar hne]
    intro hc
    have hdata := congrArg String.data hc
    rw [strApp_data, strApp_data] at hdata
    have hlen := congrArg List.length hdata
    rw [List.length_append, List.length_append] at hlen
    have h1 : ("?" : String).data.length = 1 := rfl
    omega
  · intro req2 hok2
    rw [hsnd] at hok2
    have hurl2 := (toRequest_ok_spec (applyQuery ar) env req2 hok2).1
    rw [applyQuery_Path_query (applyQuery ar)
        (by rw [(applyQuery_queryMaps ar).1, (applyQuery_queryMaps ar).2]; exact hne)] at hurl2
    rw [queryStringOf_applyQuery ar, applyQuery_Path_query ar hne] at hurl2
    exact hurl2

/-- Concrete instantiation of amended claim C9 at an event with one
multi-value query parameter. -/
theorem claim_C9_witness :
    (sampleMutationEvent.IsBase64Encoded = true →
       base64DecodeGo sampleMutationEvent.Body ≠ none) ∧
    (sampleMutationEvent.MultiValueQueryStringParameters ≠ [] ∨
       sampleMutationEvent.QueryStringParameters ≠ []) ∧
    ((sampleMutationEvent.ToRequest none).2.Path
        = sampleMutationEvent.Path ++ "?" ++ queryStringOf sampleMutationEvent ∧
     (sampleMutationEvent.ToRequest none).2.Path ≠ sampleMutationEvent.Path ∧
     (∀ req2, ((sampleMutationEvent.ToRequest none).2.ToRequest none).1 = Except.ok req2 →
        req2.url = sampleMutationEvent.Path ++ "?" ++ queryStringOf sampleMutationEvent
          ++ "?" ++ queryStringOf sampleMutationEvent)) :=
  ⟨by decide, by decide, claim_C9 none sampleMutationEvent (by decide) (by decide)⟩

/-- Sanity evaluation of the base64 model: a known word decodes, a string
with a byte outside the alphabet is rejected. -/
theorem sanityBase64 :
    base64DecodeGo (strBytes "SGVsbG8=") = some (strBytes "Hello") ∧
    base64DecodeGo (strBytes "bad!") = none := by decide

/-- Sanity evaluation of the UTF-8 validity model: encoded text is valid,
a truncated two-byte leader and a stray 255 are not. -/
theorem sanityUtf8 :
    utf8Valid (strBytes "héllo") = true ∧ utf8Valid [72, 255] = false := by decide

/-- Sanity evaluation of query escaping and MIME canonicalisation. -/
theorem sanityEscaping :
    queryEscape "a b&c" = "a+b%26c" ∧
    canonicalMIMEHeaderKey "x-custom-header" = "X-Custom-Header" := by decide

/-- Sanity evaluation of the Go string helpers. -/
theorem sanityStrings :
    goTrimSpaces "  " = "" ∧ goReplaceOnce "/api/hello" "/api" = "/hello" := by decide
